import Mathlib

set_option autoImplicit false

namespace CasperEE

/-! Shallow embedding of the core of the casper-node execution engine:
the runtime host-buffer protocol, system-contract gas charging, the
contract-call context rules, URef attenuation, the executor result
construction, WASM preprocessing limits, and the global-state commit loop.
Definitions are translated from the Rust sources under
execution_engine/src; components of the repository whose sources are not
available (casper_types value model, RuntimeContext, TrackingCopy,
shared/transform.rs, shared/wasm_config.rs, runtime/utils.rs and the
external pwasm_utils crate) are modelled from the specification and marked
as such in their doc comments. -/

/-! ## Basic data model (casper_types, modelled from the spec) -/

/-- Modelled from the spec: a 32-byte address, abstracted as a natural number. -/
abbrev Addr := Nat

/-- Modelled from the spec: an account hash. -/
abbrev AccountHash := Nat

/-- Modelled from the spec: a contract hash. -/
abbrev ContractHash := Nat

/-- Modelled from the spec: the access-rights bitset of a URef,
with the three bits READ, WRITE and ADD. -/
structure AccessRights where
  read : Bool
  write : Bool
  add : Bool
deriving DecidableEq, Repr

/-- Modelled from the spec: the WRITE-only access rights value. -/
def AccessRights.WRITE : AccessRights := ⟨false, true, false⟩

/-- Modelled from the spec: the full READ, WRITE and ADD rights. -/
def AccessRights.READ_ADD_WRITE : AccessRights := ⟨true, true, true⟩

/-- Modelled from the spec: an unforgeable reference, a 32-byte address
together with an access-rights bitset. -/
structure URef where
  addr : Addr
  rights : AccessRights
deriving DecidableEq, Repr

/-- Modelled from the spec: a tagged key addressing a cell of global state.
Only the variants the verified operations touch are represented; URef keys
are normalized to their address as lookup ignores the rights bits. -/
inductive Key where
  | account (h : AccountHash)
  | hash (h : Nat)
  | uref (a : Addr)
  | balance (a : Addr)
  | deployInfo (h : Nat)
  | dictionary (a : Addr)
deriving DecidableEq, Repr

/-- Modelled from the spec: a typed CLValue payload, restricted to the
shapes the verified operations inspect. -/
inductive CLValue where
  | unit
  | i32 (n : Int)
  | u64 (n : Nat)
  | uref (u : URef)
  | bytes (bs : List Nat)
deriving DecidableEq, Repr

/-- Modelled from the spec: the canonical byte serialization of a CLValue
(length-prefixed vectors, tagged unions); only its length and contents as a
byte list matter to the verified operations. -/
def CLValue.toBytes : CLValue → List Nat
  | .unit => []
  | .i32 _ => [0, 0, 0, 0]
  | .u64 _ => [0, 0, 0, 0, 0, 0, 0, 0]
  | .uref u => u.addr % 256 :: List.replicate 32 0
  | .bytes bs => [bs.length % 256, 0, 0, 0] ++ bs

/-- Modelled from the spec: a stored value of global state, restricted to
the variants the verified operations touch. -/
inductive StoredValue where
  | clValue (v : CLValue)
  | account (mainPurse : URef) (namedKeys : List (String × Key))
  | contractWasm (bs : List Nat)
deriving DecidableEq, Repr

/-- Modelled from the spec: the error of applying an incompatible transform
(shared/transform.rs is not among the available sources). -/
inductive TransformError where
  | typeMismatch
  | failureTransform
deriving DecidableEq, Repr

/-- Modelled from the spec: a commit-time transform on a key: Identity,
Write (absorbing), the additive variants, AddKeys and Failure. -/
inductive Transform where
  | identity
  | write (v : StoredValue)
  | addInt32 (i : Int)
  | addUInt64 (n : Nat)
  | addKeys (ks : List (String × Key))
  | failure
deriving DecidableEq, Repr

/-- Modelled from the spec: applying a transform to a currently stored
value; Write is absorbing, the Add variants require a compatible numeric
type, AddKeys merges into the named-key map of an account, and Failure
always errors. Machine integers wrap at their width. -/
def Transform.apply : Transform → StoredValue → Except TransformError StoredValue
  | .identity, v => .ok v
  | .write v, _ => .ok v
  | .addInt32 i, .clValue (.i32 n) => .ok (.clValue (.i32 ((n + i).emod (2 ^ 32))))
  | .addInt32 _, _ => .error .typeMismatch
  | .addUInt64 n, .clValue (.u64 m) => .ok (.clValue (.u64 ((m + n) % 2 ^ 64)))
  | .addUInt64 _, _ => .error .typeMismatch
  | .addKeys ks, .account p nk => .ok (.account p (nk ++ ks))
  | .addKeys _, _ => .error .typeMismatch
  | .failure, _ => .error .failureTransform

/-! ## Execution-time errors

Modelled from the spec taxonomy in section 7; the execution Error enum
(core/execution/error.rs) is not among the available sources, so only the
variants reachable from the verified operations are represented. -/

/-- Modelled from the spec: a recoverable ApiError code observable by the
guest. -/
inductive ApiError where
  | hostBufferFull
  | hostBufferEmpty
  | bufferTooSmall
  | outOfMemory
  | valueNotFound
  | missingArgument
deriving DecidableEq, Repr

/-- An oversized or malformed section found while validating a WASM module
(wasm_engine.rs). -/
inductive WasmValidationError where
  | missingFunctionType (index : Nat)
  | missingFunctionIndex (index : Nat)
  | incorrectGlobalOperation (index : Nat)
  | moreThanOneTable
  | initialTableSizeExceeded (max actual : Nat)
  | maxTableSizeExceeded (max actual : Nat)
  | brTableSizeExceeded (max actual : Nat)
  | tooManyGlobals (max actual : Nat)
  | tooManyParameters (max actual : Nat)
  | missingHostFunction
deriving DecidableEq, Repr

/-- Failure modes of WASM preprocessing (wasm_engine.rs). -/
inductive PreprocessingError where
  | deserialize (msg : String)
  | operationForbiddenByGasRules
  | stackLimiter
  | missingMemorySection
  | missingModule
  | wasmValidation (e : WasmValidationError)
deriving DecidableEq, Repr

/-- Modelled from the spec: the typed execution error carried by a trap or
returned by a host operation. -/
inductive Error where
  | interpreter (msg : String)
  | gasLimit
  | invalidContext
  | forgedReference (u : URef)
  | ret (urefs : List URef)
  | expectedReturnValue
  | disabledContract (h : ContractHash)
  | noSuchMethod (name : String)
  | keyNotFound (k : Key)
  | revert (e : ApiError)
  | missingRuntimeStack
  | wasmPreprocessing (e : PreprocessingError)
deriving DecidableEq, Repr

/-! ## Host buffer protocol (core/runtime/mod.rs) -/

/-- Runtime method take_host_buffer: if the host buffer is set, clears it
and returns the value, else returns none; the first component is the taken
value, the second the buffer state afterwards. -/
def take_host_buffer (buf : Option CLValue) : Option CLValue × Option CLValue :=
  (buf, none)

/-- Runtime method can_write_to_host_buffer: a write can happen only when
the host buffer is empty. -/
def can_write_to_host_buffer (buf : Option CLValue) : Bool :=
  buf.isNone

/-- Runtime method write_host_buffer: stores data in the host buffer only
when it is in the empty state, failing with HostBufferFull otherwise; the
first component is the buffer state afterwards, the second the result. -/
def write_host_buffer (buf : Option CLValue) (data : CLValue) :
    Option CLValue × Except ApiError Unit :=
  match buf with
  | some v => (some v, .error .hostBufferFull)
  | none => (some data, .ok ())

/-- Runtime method check_host_buffer: fails with HostBufferFull unless a
write to the host buffer can happen. -/
def check_host_buffer (buf : Option CLValue) : Except ApiError Unit :=
  if !can_write_to_host_buffer buf then .error .hostBufferFull else .ok ()

/-! ## Linear memory of the WASM instance

Modelled from the spec: the FunctionContext capability exposes
memory_write with out-of-bounds failing; the concrete WASM backends are
external to the core. -/

/-- Modelled from the spec: the linear memory of an instance, a byte list
of fixed size. -/
structure Mem where
  size : Nat
  data : List Nat
deriving DecidableEq, Repr

/-- Modelled from the spec: memory_write places bytes at an offset and
fails when the write would run out of bounds. -/
def memory_write (mem : Mem) (offset : Nat) (bs : List Nat) : Except String Mem :=
  if offset + bs.length ≤ mem.size then
    .ok { mem with data := mem.data.take offset ++ bs ++ mem.data.drop (offset + bs.length) }
  else
    .error "memory access out of bounds"

/-- Little-endian encoding of a 32-bit value, as produced by to_le_bytes. -/
def u32le (n : Nat) : List Nat :=
  [n % 256, n / 256 % 256, n / 256 ^ 2 % 256, n / 256 ^ 3 % 256]

/-- The u32 maximum used by the host buffer size check. -/
def U32_MAX : Nat := 2 ^ 32 - 1

/-- Host function casper_read_host_buffer (core/runtime/mod.rs): takes the
staged value out of the host buffer first, then checks sizes, then copies
the bytes out and reports the written length. The first component is the
host buffer state afterwards; the second is the outcome: a trap error, or
the new memory together with the recoverable result. -/
def casper_read_host_buffer (buf : Option CLValue) (mem : Mem)
    (dest_ptr dest_size bytes_written_ptr : Nat) :
    Option CLValue × Except Error (Mem × Except ApiError Unit) :=
  let taken := take_host_buffer buf
  match taken.1 with
  | none => (taken.2, .ok (mem, .error .hostBufferEmpty))
  | some cl_value =>
    let serialized_value := cl_value.toBytes
    if serialized_value.length > U32_MAX then
      (taken.2, .ok (mem, .error .outOfMemory))
    else if serialized_value.length > dest_size then
      (taken.2, .ok (mem, .error .bufferTooSmall))
    else
      let sliced_buf := serialized_value.take (min dest_size serialized_value.length)
      match memory_write mem dest_ptr sliced_buf with
      | .error e => (taken.2, .error (.interpreter e))
      | .ok mem1 =>
        match memory_write mem1 bytes_written_ptr (u32le sliced_buf.length) with
        | .error e => (taken.2, .error (.interpreter e))
        | .ok mem2 => (taken.2, .ok (mem2, .ok ()))

/-! ## Entry-point types and the contract-call context key
(core/runtime/mod.rs) -/

/-- The type of an entry point: session runs in the account context,
contract in the context of the called contract. -/
inductive EntryPointType where
  | session
  | contract
deriving DecidableEq, Repr

/-- Runtime method get_context_key_for_contract_call: session code cannot
be called from contract code; session to session reuses the current base
key; any call into a contract entry point uses the callee contract hash. -/
def get_context_key_for_contract_call (current : EntryPointType) (base_key : Key)
    (contract_hash : ContractHash) (next : EntryPointType) : Except Error Key :=
  match current, next with
  | .contract, .session => .error .invalidContext
  | .session, .session => .ok base_key
  | .session, .contract => .ok (.hash contract_hash)
  | .contract, .contract => .ok (.hash contract_hash)

/-! ## Call stack and system-contract gas charging
(core/runtime/mod.rs) -/

/-- A frame of the runtime call stack: the initiating session, a stored
session, or a stored contract. -/
inductive CallStackElement where
  | session (account_hash : AccountHash)
  | storedSession (account_hash : AccountHash) (pkg : Nat) (contract_hash : ContractHash)
  | storedContract (pkg : Nat) (contract_hash : ContractHash)
deriving DecidableEq, Repr

/-- Modelled from the spec: the fixed account hash of the system public
key (PublicKey::System); only its identity matters here. -/
def systemAccountHash : AccountHash := 0

/-- Runtime method is_system_immediate_caller: true when the previous
call-stack frame is the session of the system account, or a stored session
or stored contract whose contract hash is a system contract; false when
there is no previous frame. The system-contract predicate of the runtime
context is passed in as a function. -/
def is_system_immediate_caller (immediate_caller : Option CallStackElement)
    (is_system_contract : ContractHash → Bool) : Bool :=
  match immediate_caller with
  | none => false
  | some (.session account_hash) => account_hash = systemAccountHash
  | some (.storedSession _ _ contract_hash) => is_system_contract contract_hash
  | some (.storedContract _ contract_hash) => is_system_contract contract_hash

/-- Modelled from the spec: the runtime context charge operation adds the
amount to the gas counter and fails with GasLimit once the counter would
exceed the limit (RuntimeContext is not among the available sources). -/
def context_charge_gas (gas_counter gas_limit amount : Nat) : Except Error Nat :=
  if gas_counter + amount > gas_limit then .error .gasLimit else .ok (gas_counter + amount)

/-- Runtime method charge_system_contract_call: does not charge when the
runtime is within the scope of a host function call or when the immediate
caller is system; otherwise charges the amount through the context.
Returns the gas counter afterwards. -/
def charge_system_contract_call (host_function_flag : Bool)
    (immediate_caller : Option CallStackElement)
    (is_system_contract : ContractHash → Bool)
    (gas_counter gas_limit amount : Nat) : Except Error Nat :=
  if host_function_flag || is_system_immediate_caller immediate_caller is_system_contract then
    .ok gas_counter
  else
    context_charge_gas gas_counter gas_limit amount

/-! ## URef attenuation and contract-call argument preparation
(core/runtime/mod.rs and core/execution/executor.rs) -/

/-- Named runtime arguments: a list of name-value pairs. -/
abbrev RuntimeArgs := List (String × CLValue)

/-- Modelled from the spec: the value-level attenuation step, replacing
the rights of a URef at the main-purse address. -/
def attenuate_value (main_purse_addr : Addr) (rights : AccessRights) : CLValue → CLValue
  | .uref u => if u.addr = main_purse_addr then .uref ⟨u.addr, rights⟩ else .uref u
  | v => v

/-- Modelled from the spec: utils::attenuate_uref_in_args (runtime/utils.rs
is not among the available sources) replaces the access rights of every
occurrence of the given main-purse address among the argument values by the
given rights. -/
def attenuate_uref_in_args (args : RuntimeArgs) (main_purse_addr : Addr)
    (rights : AccessRights) : RuntimeArgs :=
  args.map fun nv => (nv.1, attenuate_value main_purse_addr rights nv.2)

/-- The attenuation condition of Runtime::execute_contract: the
originating account is not the system account, the immediate caller is a
normal account or contract, and the callee is a normal contract. -/
def should_attenuate_urefs (is_system_account is_caller_system_contract
    is_calling_system_contract : Bool) : Bool :=
  !is_system_account && !is_caller_system_contract && !is_calling_system_contract

/-- The arguments Runtime::execute_contract hands to the callee context:
attenuated exactly when should_attenuate_urefs holds. -/
def execute_contract_context_args (args : RuntimeArgs) (main_purse_addr : Addr)
    (is_system_account is_caller_system_contract is_calling_system_contract : Bool) :
    RuntimeArgs :=
  if should_attenuate_urefs is_system_account is_caller_system_contract
      is_calling_system_contract then
    attenuate_uref_in_args args main_purse_addr AccessRights.WRITE
  else
    args

/-- The argument preparation of the Module branch of Executor::exec: the
main-purse URef in the session args is attenuated to WRITE
unconditionally. -/
def exec_module_args (args : RuntimeArgs) (main_purse_addr : Addr) : RuntimeArgs :=
  attenuate_uref_in_args args main_purse_addr AccessRights.WRITE

/-! ## Result handling after a contract invocation
(core/runtime/mod.rs, Runtime::execute_contract) -/

/-- The error side of an invocation result before into_host_error is
applied: either a trap carrying a typed host error, or an interpreter
error presented as a message. -/
inductive InvokeError where
  | hostError (e : Error)
  | interpError (msg : String)
deriving DecidableEq, Repr

/-- The per-frame context pieces execute_contract reads back from the
child runtime after the invocation. -/
structure FrameCtx where
  entry_point_type : EntryPointType
  named_keys : List (String × Key)
  access_rights : List URef
  remaining_spending_limit : Nat
  gas_counter : Nat
deriving DecidableEq, Repr

/-- The tail of Runtime::execute_contract after invoke_export returns: the
gas counter is copied back from the child; on a clean exit the named keys
are propagated for session-to-session calls, the spending limit is copied
back, and the value taken from the child host buffer is returned, Unit
when that buffer is empty; on a Ret trap the returned URefs extend the
caller access rights and the child host buffer must hold the value; any
other host error propagates and interpreter errors are wrapped. -/
def execute_contract_epilogue (parent child : FrameCtx) (child_host_buffer : Option CLValue)
    (result : Except InvokeError Unit) : FrameCtx × Except Error CLValue :=
  let parent := { parent with gas_counter := child.gas_counter }
  match result with
  | .ok () =>
    let parent :=
      if parent.entry_point_type = .session ∧ child.entry_point_type = .session then
        { parent with named_keys := child.named_keys }
      else parent
    let parent := { parent with remaining_spending_limit := child.remaining_spending_limit }
    (parent, .ok ((take_host_buffer child_host_buffer).1.getD .unit))
  | .error (.hostError (.ret ret_urefs)) =>
    let parent := { parent with access_rights := parent.access_rights ++ ret_urefs }
    match (take_host_buffer child_host_buffer).1 with
    | some v => (parent, .ok v)
    | none => (parent, .error .expectedReturnValue)
  | .error (.hostError e) => (parent, .error e)
  | .error (.interpError msg) => (parent, .error (.interpreter msg))

/-! ## WASM module shape and preprocessing
(shared/wasm_engine.rs) -/

/-- A value type of a function signature. -/
inductive ValType where
  | i32
  | i64
deriving DecidableEq, Repr

/-- A function type: its parameter list. -/
structure FuncType where
  params : List ValType
deriving DecidableEq, Repr

/-- The immediate data of a br_table instruction: the jump table and the
default label. -/
structure BrTableData where
  table : List Nat
  defaultLabel : Nat
deriving DecidableEq, Repr

/-- The instructions the preprocessing checks inspect. -/
inductive Instruction where
  | call (idx : Nat)
  | getGlobal (idx : Nat)
  | setGlobal (idx : Nat)
  | brTable (data : BrTableData)
  | i32Const (n : Int)
  | f32Add
  | nop
deriving DecidableEq, Repr

/-- A function body: its instruction sequence. -/
structure FuncBody where
  code : List Instruction
deriving DecidableEq, Repr

/-- The external kind of an import entry. -/
inductive External where
  | function (type_index : Nat)
  | table
  | memory
  | global
deriving DecidableEq, Repr

/-- An import entry: module name, field name and external kind. -/
structure ImportEntry where
  moduleName : String
  fieldName : String
  external : External
deriving DecidableEq, Repr

/-- The internal referent of an export entry. -/
inductive Internal where
  | function (idx : Nat)
  | memory (idx : Nat)
  | global (idx : Nat)
deriving DecidableEq, Repr

/-- An export entry: field name and internal referent. -/
structure ExportEntry where
  fieldName : String
  internal : Internal
deriving DecidableEq, Repr

/-- A table section entry: initial size and optional maximum. -/
structure TableType where
  initial : Nat
  maximum : Option Nat
deriving DecidableEq, Repr

/-- A memory section entry: initial pages and optional maximum. -/
structure MemoryType where
  initial : Nat
  maximum : Option Nat
deriving DecidableEq, Repr

/-- A global section entry. -/
structure GlobalEntry where
  init : Int
deriving DecidableEq, Repr

/-- An element segment: the function indices it holds. -/
structure ElementSegment where
  members : List Nat
deriving DecidableEq, Repr

/-- The parsed module shape the preprocessing pipeline inspects, mirroring
the parity_wasm sections used by wasm_engine.rs. -/
structure WasmModule where
  typeSection : Option (List FuncType)
  importSection : Option (List ImportEntry)
  functionSection : Option (List Nat)
  tableSection : Option (List TableType)
  memorySection : Option (List MemoryType)
  globalSection : Option (List GlobalEntry)
  exportSection : Option (List ExportEntry)
  elementsSection : Option (List ElementSegment)
  startSection : Option Nat
  codeSection : Option (List FuncBody)
deriving DecidableEq, Repr

/-- We only allow a maximum of 4k function pointers in a table section. -/
def DEFAULT_MAX_TABLE_SIZE : Nat := 4096

/-- Maximum number of elements that can appear as the immediate value of
the br_table instruction. -/
def DEFAULT_BR_TABLE_MAX_SIZE : Nat := 256

/-- Maximum number of globals a module is allowed to declare. -/
def DEFAULT_MAX_GLOBALS : Nat := 256

/-- Maximum number of parameters a function can have. -/
def DEFAULT_MAX_PARAMETER_COUNT : Nat := 256

/-- The reserved module name of the injected gas function. -/
def DEFAULT_GAS_MODULE_NAME : String := "env"

/-- The reserved field name of the injected gas function. -/
def INTERNAL_GAS_FUNCTION_NAME : String := "gas"

/-- Execution mode of the WASM engine. -/
inductive ExecutionMode where
  | interpreted
  | compiled
  | justInTime
  | singlepass
deriving DecidableEq, Repr

/-- Modelled from the spec: the WasmConfig surface (shared/wasm_config.rs
is not among the available sources): memory and stack limits, the section
limits, the opcode cost table as a partial cost function (opcodes without
a cost are forbidden), and the execution mode. -/
structure WasmConfig where
  max_memory : Nat
  max_stack_height : Nat
  max_table_size : Nat
  br_table_max_size : Nat
  max_globals : Nat
  max_parameter_count : Nat
  opcodeCost : Instruction → Option Nat
  executionMode : ExecutionMode

/-- Helper ensure_valid_function_index: a referenced function index must
be below the function count. -/
def ensure_valid_function_index (index function_count : Nat) :
    Except WasmValidationError Unit :=
  if index ≥ function_count then .error (.missingFunctionIndex index) else .ok ()

/-- Counts the imported functions, requiring each referenced function type
index to exist (first loop of ensure_valid_access). -/
def countImportedFunctions (function_types_count : Nat) :
    List ImportEntry → Nat → Except WasmValidationError Nat
  | [], acc => .ok acc
  | e :: rest, acc =>
    match e.external with
    | .function ti =>
      if ti < function_types_count then countImportedFunctions function_types_count rest (acc + 1)
      else .error (.missingFunctionType ti)
    | _ => countImportedFunctions function_types_count rest acc

/-- Counts the declared functions, requiring each type reference to exist
(second loop of ensure_valid_access). -/
def countDeclaredFunctions (function_types_count : Nat) :
    List Nat → Nat → Except WasmValidationError Nat
  | [], acc => .ok acc
  | ti :: rest, acc =>
    if ti < function_types_count then countDeclaredFunctions function_types_count rest (acc + 1)
    else .error (.missingFunctionType ti)

/-- Checks every instruction of the flattened code section: call indices
must reference declared functions; global reads and writes must reference
declared globals (final loop of ensure_valid_access). -/
def checkCodeAccess (function_count global_len : Nat) :
    List Instruction → Except WasmValidationError Unit
  | [] => .ok ()
  | .call idx :: rest => do
    ensure_valid_function_index idx function_count
    checkCodeAccess function_count global_len rest
  | .getGlobal idx :: rest =>
    if idx ≥ global_len then .error (.incorrectGlobalOperation idx)
    else checkCodeAccess function_count global_len rest
  | .setGlobal idx :: rest =>
    if idx ≥ global_len then .error (.incorrectGlobalOperation idx)
    else checkCodeAccess function_count global_len rest
  | _ :: rest => checkCodeAccess function_count global_len rest

/-- Checks the element segments (ensure_valid_access). -/
def checkElementSegments (function_count : Nat) :
    List ElementSegment → Except WasmValidationError Unit
  | [] => .ok ()
  | seg :: rest => do
    let _ ← seg.members.foldlM (fun _ idx => ensure_valid_function_index idx function_count) ()
    checkElementSegments function_count rest

/-- Function ensure_valid_access: all references to functions and globals
in the module must be declared. -/
def ensure_valid_access (m : WasmModule) : Except WasmValidationError Unit := do
  let function_types_count := (m.typeSection.getD []).length
  let importedCount ← countImportedFunctions function_types_count (m.importSection.getD []) 0
  let function_count ← countDeclaredFunctions function_types_count
    (m.functionSection.getD []) importedCount
  match m.startSection with
  | some function_index => ensure_valid_function_index function_index function_count
  | none => pure ()
  let _ ← (m.exportSection.getD []).foldlM
    (fun _ e =>
      match e.internal with
      | .function idx => ensure_valid_function_index idx function_count
      | _ => pure ()) ()
  match m.codeSection with
  | some bodies =>
    let global_len := (m.globalSection.getD []).length
    checkCodeAccess function_count global_len (bodies.flatMap FuncBody.code)
  | none => pure ()
  match m.elementsSection with
  | some segs => checkElementSegments function_count segs
  | none => pure ()

/-- Function memory_section: the memory section of the module, when
present. -/
def memory_section (m : WasmModule) : Option (List MemoryType) :=
  m.memorySection

/-- Function ensure_table_size_limit: the table section has at most one
entry, its initial and maximum sizes are within the limit, and a missing
maximum is rewritten to the limit. -/
def ensure_table_size_limit (m : WasmModule) (limit : Nat) :
    Except WasmValidationError WasmModule :=
  match m.tableSection with
  | none => .ok m
  | some entries =>
    if entries.length > 1 then .error .moreThanOneTable
    else
      match entries with
      | [] => .ok m
      | entry :: _ =>
        if entry.initial > limit then
          .error (.initialTableSizeExceeded limit entry.initial)
        else
          match entry.maximum with
          | some max =>
            if max > limit then .error (.maxTableSizeExceeded limit max) else .ok m
          | none => .ok { m with tableSection := some [⟨entry.initial, some limit⟩] }

/-- The instruction scan of ensure_br_table_size_limit over the flattened
code section. -/
def check_br_tables (limit : Nat) : List Instruction → Except WasmValidationError Unit
  | [] => .ok ()
  | .brTable data :: rest =>
    if data.table.length > limit then
      .error (.brTableSizeExceeded limit data.table.length)
    else check_br_tables limit rest
  | _ :: rest => check_br_tables limit rest

/-- Function ensure_br_table_size_limit: every br_table instruction must
have at most limit entries in its jump table. -/
def ensure_br_table_size_limit (m : WasmModule) (limit : Nat) :
    Except WasmValidationError Unit :=
  match m.codeSection with
  | none => .ok ()
  | some bodies => check_br_tables limit (bodies.flatMap FuncBody.code)

/-- Function ensure_global_variable_limit: the module declares at most
limit globals. -/
def ensure_global_variable_limit (m : WasmModule) (limit : Nat) :
    Except WasmValidationError Unit :=
  match m.globalSection with
  | none => .ok ()
  | some entries =>
    if entries.length > limit then .error (.tooManyGlobals limit entries.length) else .ok ()

/-- Function ensure_parameter_limit: no function type has more than limit
parameters. -/
def ensure_parameter_limit (m : WasmModule) (limit : Nat) :
    Except WasmValidationError Unit :=
  match m.typeSection with
  | none => .ok ()
  | some types =>
    match types.find? (fun ft => ft.params.length > limit) with
    | some ft => .error (.tooManyParameters limit ft.params.length)
    | none => .ok ()

/-- Function ensure_valid_imports: no import may reference the internal
gas function name in the gas module. -/
def ensure_valid_imports (m : WasmModule) : Except WasmValidationError Unit :=
  if (m.importSection.getD []).any
      (fun e => e.moduleName = DEFAULT_GAS_MODULE_NAME ∧
        e.fieldName = INTERNAL_GAS_FUNCTION_NAME) then
    .error .missingHostFunction
  else .ok ()

/-- Modelled from the spec: pwasm_utils::externalize_mem (external crate)
rewrites the module memory to an import of the configured maximum; it does
not alter the sections tracked here. -/
def externalize_mem (m : WasmModule) (_max_memory : Nat) : WasmModule :=
  m

/-- Modelled from the spec: pwasm_utils::inject_gas_counter (external
crate) injects gas counters per the opcode cost table and rejects any
opcode without a cost; the injected calls are not tracked here. -/
def inject_gas_counter (m : WasmModule) (cfg : WasmConfig) :
    Except PreprocessingError WasmModule :=
  if (m.codeSection.getD []).all (fun body => body.code.all (fun i => (cfg.opcodeCost i).isSome))
  then .ok m
  else .error .operationForbiddenByGasRules

/-- Modelled from the spec: pwasm_utils::stack_height::inject_limiter
(external crate) instruments the module with a stack-height limiter; the
instrumentation is not tracked here. -/
def inject_stack_limiter (m : WasmModule) (_max_stack_height : Nat) :
    Except PreprocessingError WasmModule :=
  .ok m

/-- Method WasmEngine::preprocess: validates accesses, requires a memory
section, applies the table, br_table, global, parameter and import checks
against the fixed default limits, then externalizes memory and injects the
gas counter and the stack limiter. The module is returned on success; the
deserialization of raw bytes and the per-mode compiled artifacts are
external to this model. -/
def preprocess (cfg : WasmConfig) (m : WasmModule) :
    Except PreprocessingError WasmModule :=
  match ensure_valid_access m with
  | .error e => .error (.wasmValidation e)
  | .ok () =>
  if (memory_section m).isNone then .error .missingMemorySection
  else
  match ensure_table_size_limit m DEFAULT_MAX_TABLE_SIZE with
  | .error e => .error (.wasmValidation e)
  | .ok m =>
  match ensure_br_table_size_limit m DEFAULT_BR_TABLE_MAX_SIZE with
  | .error e => .error (.wasmValidation e)
  | .ok () =>
  match ensure_global_variable_limit m DEFAULT_MAX_GLOBALS with
  | .error e => .error (.wasmValidation e)
  | .ok () =>
  match ensure_parameter_limit m DEFAULT_MAX_PARAMETER_COUNT with
  | .error e => .error (.wasmValidation e)
  | .ok () =>
  match ensure_valid_imports m with
  | .error e => .error (.wasmValidation e)
  | .ok () =>
  let m := externalize_mem m cfg.max_memory
  match inject_gas_counter m cfg with
  | .error e => .error e
  | .ok m =>
  match inject_stack_limiter m cfg.max_stack_height with
  | .error e => .error e
  | .ok m => .ok m

/-! ## Executor and execution results
(core/execution/executor.rs and core/runtime/mod.rs) -/

/-- The journal of pending transforms of the tracking copy: an ordered
list of key-transform pairs; modelled from the spec (tracking_copy is not
among the available sources). -/
abbrev Journal := List (Key × Transform)

/-- The structured result of an execution: on success the journal of the
tracking copy, the accumulated transfers and the gas cost; on failure the
error together with a journal, transfers and cost. -/
inductive ExecutionResult where
  | success (execution_journal : Journal) (transfers : List Nat) (cost : Nat)
  | failure (error : Error) (execution_journal : Journal) (transfers : List Nat) (cost : Nat)
deriving DecidableEq, Repr

/-- The pieces of the runtime observable by into_success and into_failure:
the journal of the shared tracking copy as read through the context, the
transfers and the gas counter. -/
structure RuntimeSnapshot where
  journal : Journal
  transfers : List Nat
  gas_counter : Nat
deriving DecidableEq, Repr

/-- Runtime::into_success: wraps the journal of the context at this
moment, the transfers and the gas counter into a success result. -/
def into_success (rt : RuntimeSnapshot) : ExecutionResult :=
  .success rt.journal rt.transfers rt.gas_counter

/-- Runtime::into_failure: wraps the error together with the journal of
the context at this moment, the transfers and the gas counter into a
failure result. -/
def into_failure (rt : RuntimeSnapshot) (error : Error) : ExecutionResult :=
  .failure error rt.journal rt.transfers rt.gas_counter

/-- The kind of execution Executor::exec dispatches on: raw session module
bytes, or a stored contract with an entry point. -/
inductive ExecutionKind where
  | module (m : WasmModule)
  | contract (contract_hash : ContractHash) (entry_point_name : String)
deriving Repr

/-- The observable behaviour of the invocation step (the WASM instance
run, or the stored-contract call): the transforms it records through the
shared tracking copy, the transfers it accumulates, the gas it consumes,
and its outcome, none meaning a clean exit. -/
structure InvokeBehavior where
  effects : Journal
  transfers : List Nat
  gas_used : Nat
  outcome : Option InvokeError
deriving Repr

/-- Executor::exec. For the Module kind: the session args have the main
purse attenuated, the module is preprocessed (failures produce a failure
result over the pre-invocation runtime state), the instance is invoked and
the result wrapped through into_success or into_failure, with interpreter
errors wrapped by into_host_error. For the Contract kind the result of
call_contract_with_stack is wrapped the same way. The journal passed to
into_failure is the journal of the shared tracking copy at that moment:
the pre-execution journal extended by the effects the invocation recorded
before failing. -/
def Executor_exec (cfg : WasmConfig) (kind : ExecutionKind) (args : RuntimeArgs)
    (main_purse_addr : Addr) (journal_before_execution : Journal)
    (behavior : InvokeBehavior) : ExecutionResult :=
  match kind with
  | .module m =>
    let _attenuated_args := exec_module_args args main_purse_addr
    match preprocess cfg m with
    | .error e =>
      into_failure ⟨journal_before_execution, [], 0⟩ (.wasmPreprocessing e)
    | .ok _module =>
      let rt : RuntimeSnapshot :=
        ⟨journal_before_execution ++ behavior.effects, behavior.transfers, behavior.gas_used⟩
      match behavior.outcome with
      | none => into_success rt
      | some (.hostError host_error) => into_failure rt host_error
      | some (.interpError msg) => into_failure rt (.interpreter msg)
  | .contract _contract_hash _entry_point_name =>
    let rt : RuntimeSnapshot :=
      ⟨journal_before_execution ++ behavior.effects, behavior.transfers, behavior.gas_used⟩
    match behavior.outcome with
    | none => into_success rt
    | some (.hostError host_error) => into_failure rt host_error
    | some (.interpError msg) => into_failure rt (.interpreter msg)

/-! ## Global state and the commit loop
(storage/global_state/mod.rs) -/

/-- An error emitted by the execution engine on commit. -/
inductive CommitError where
  | rootNotFound
  | readRootNotFound
  | writeRootNotFound
  | keyNotFound (k : Key)
  | transformError (e : TransformError)
deriving DecidableEq, Repr

/-- A state root, identified extensionally with its key-value content (the
trie is content addressed, so equal contents hash to equal roots);
represented as an association list keyed by the first occurrence. -/
abbrev GState := List (Key × StoredValue)

/-- Reading a key at a root (trie_store::operations::read, modelled
extensionally): the value at the first occurrence of the key. -/
def gsFind : GState → Key → Option StoredValue
  | [], _ => none
  | (k, v) :: rest, key => if k = key then some v else gsFind rest key

/-- Updating a key at a root: replaces the value at the first occurrence
of the key, or appends the pair when the key is absent. -/
def gsWrite : GState → Key → StoredValue → GState
  | [], key, value => [(key, value)]
  | (k, v) :: rest, key, value =>
    if k = key then (k, value) :: rest else (k, v) :: gsWrite rest key value

/-- The durable trie store: the set of roots it holds, modelled
extensionally. -/
structure TrieDb where
  roots : List GState
deriving DecidableEq, Repr

/-- Writing a key-value pair at a root (trie_store::operations::write,
modelled extensionally): when the pair is already present the write
reports AlreadyExists and the root is unchanged; otherwise the new root is
produced and its nodes are put into the store. -/
def trieWrite (db : TrieDb) (root : GState) (key : Key) (value : StoredValue) :
    TrieDb × GState :=
  if gsFind root key = some value then (db, root)
  else
    let root' := gsWrite root key value
    (⟨root' :: db.roots⟩, root')

/-- One iteration of the commit loop over a key-transform pair: read the
current value at the state root; an absent key accepts only a Write and
otherwise fails with KeyNotFound; a present value has the transform
applied, failing with TransformError when incompatible; the resulting
value is written back, advancing the state root. -/
def commitStep (db : TrieDb) (root : GState) (key : Key) (transform : Transform) :
    Except CommitError (TrieDb × GState) :=
  match gsFind root key with
  | none =>
    match transform with
    | .write new_value => .ok (trieWrite db root key new_value)
    | _ => .error (.keyNotFound key)
  | some current_value =>
    match transform.apply current_value with
    | .ok updated_value => .ok (trieWrite db root key updated_value)
    | .error err => .error (.transformError err)

/-- The commit loop: applies the effects in sequence, threading the store
and the state root. -/
def commitLoop (db : TrieDb) (root : GState) : List (Key × Transform) →
    Except CommitError (TrieDb × GState)
  | [] => .ok (db, root)
  | (key, transform) :: rest =>
    match commitStep db root key transform with
    | .error e => .error e
    | .ok (db', root') => commitLoop db' root' rest

/-- Function commit (storage/global_state/mod.rs): fails with RootNotFound
when the pre-state root is not in the store, and otherwise runs the commit
loop over the effects, returning the post-state root together with the
store. -/
def commit (db : TrieDb) (prestate : GState) (effects : List (Key × Transform)) :
    Except CommitError (TrieDb × GState) :=
  if prestate ∈ db.roots then commitLoop db prestate effects
  else .error .rootNotFound

/-! ## Theorems -/

/-- C6: a Contract frame can never invoke a Session entry point, failing
with InvalidContext; Session to Session reuses the caller base key as the
context key; Session to Contract and Contract to Contract use the callee
contract hash. -/
theorem c6_contract_call_context_key_rules :
    (∀ (base_key : Key) (h : ContractHash),
      get_context_key_for_contract_call .contract base_key h .session =
        .error .invalidContext) ∧
    (∀ (base_key : Key) (h : ContractHash),
      get_context_key_for_contract_call .session base_key h .session = .ok base_key) ∧
    (∀ (base_key : Key) (h : ContractHash),
      get_context_key_for_contract_call .session base_key h .contract = .ok (.hash h)) ∧
    (∀ (base_key : Key) (h : ContractHash),
      get_context_key_for_contract_call .contract base_key h .contract = .ok (.hash h)) :=
  ⟨fun _ _ => rfl, fun _ _ => rfl, fun _ _ => rfl, fun _ _ => rfl⟩

/-- C3: staging into the host buffer fails with HostBufferFull and keeps
the previous value when the buffer is occupied; staging succeeds exactly
from the empty state; taking the buffer and reading it through
read_host_buffer leave it empty. -/
theorem c3_host_buffer_protocol :
    (∀ (v data : CLValue),
      write_host_buffer (some v) data = (some v, .error .hostBufferFull)) ∧
    (∀ (buf : Option CLValue) (data : CLValue),
      (write_host_buffer buf data).2 = .ok () → buf = none) ∧
    (∀ (data : CLValue), write_host_buffer none data = (some data, .ok ())) ∧
    (∀ (buf : Option CLValue), (take_host_buffer buf).2 = none) ∧
    (∀ (buf : Option CLValue) (mem : Mem) (dest_ptr dest_size bytes_written_ptr : Nat),
      (casper_read_host_buffer buf mem dest_ptr dest_size bytes_written_ptr).1 = none) := by
  refine ⟨fun _ _ => rfl, ?_, fun _ => rfl, fun _ => rfl, ?_⟩
  · intro buf data h
    cases buf with
    | none => rfl
    | some v => simp [write_host_buffer] at h
  · intro buf mem p s q
    cases buf with
    | none => rfl
    | some v =>
      simp only [casper_read_host_buffer, take_host_buffer]
      split
      · rfl
      · split
        · rfl
        · split
          · rfl
          · split <;> rfl

/-- C3 witness: the protocol facts evaluated at concrete inputs. -/
theorem c3_host_buffer_protocol_witness :
    write_host_buffer (some CLValue.unit) (CLValue.u64 1) =
      (some CLValue.unit, .error .hostBufferFull) ∧
    (none : Option CLValue) = none ∧
    write_host_buffer none CLValue.unit = (some CLValue.unit, .ok ()) ∧
    (take_host_buffer (some CLValue.unit)).2 = none ∧
    (casper_read_host_buffer (some CLValue.unit) ⟨8, List.replicate 8 0⟩ 0 8 4).1 = none :=
  ⟨c3_host_buffer_protocol.1 CLValue.unit (CLValue.u64 1),
   c3_host_buffer_protocol.2.1 none CLValue.unit rfl,
   c3_host_buffer_protocol.2.2.1 CLValue.unit,
   c3_host_buffer_protocol.2.2.2.1 (some CLValue.unit),
   c3_host_buffer_protocol.2.2.2.2 (some CLValue.unit) ⟨8, List.replicate 8 0⟩ 0 8 4⟩

/-- C10: a read_host_buffer call finding a staged value larger than the
destination buffer returns the recoverable BufferTooSmall error, yet the
staged value has already been taken: the host buffer is empty afterwards
and the memory is untouched. -/
theorem c10_read_host_buffer_too_small_clears_buffer :
    ∀ (v : CLValue) (mem : Mem) (dest_ptr dest_size bytes_written_ptr : Nat),
      v.toBytes.length ≤ U32_MAX →
      v.toBytes.length > dest_size →
      casper_read_host_buffer (some v) mem dest_ptr dest_size bytes_written_ptr =
        (none, .ok (mem, .error .bufferTooSmall)) := by
  intro v mem p s q hle hgt
  simp only [casper_read_host_buffer, take_host_buffer]
  rw [if_neg (by omega), if_pos hgt]

/-- C10 witness: an eight-byte staged value against a four-byte
destination. -/
theorem c10_read_host_buffer_too_small_witness :
    casper_read_host_buffer (some (CLValue.u64 5)) ⟨16, List.replicate 16 0⟩ 0 4 12 =
      (none, .ok (⟨16, List.replicate 16 0⟩, .error .bufferTooSmall)) :=
  c10_read_host_buffer_too_small_clears_buffer (CLValue.u64 5) ⟨16, List.replicate 16 0⟩
    0 4 12 (by decide) (by decide)

/-- C2 counterexample: a callee whose WASM instance exits cleanly without
ret, but with a value staged in its host buffer by an earlier host call
and never read, returns that staged value to the caller, not Unit. -/
theorem c2_clean_exit_counterexample :
    (execute_contract_epilogue ⟨.session, [], [], 0, 0⟩ ⟨.contract, [], [], 0, 0⟩
        (some (CLValue.u64 7)) (.ok ())).2 = .ok (CLValue.u64 7) ∧
    CLValue.u64 7 ≠ CLValue.unit := by
  exact ⟨rfl, by decide⟩

/-- C2 amended: on a clean exit without ret, the value returned to the
caller is the value staged in the callee host buffer when one is present,
and Unit exactly when that buffer is empty. -/
theorem c2_clean_exit_returns_host_buffer_or_unit :
    ∀ (parent child : FrameCtx) (buf : Option CLValue),
      (execute_contract_epilogue parent child buf (.ok ())).2 = .ok (buf.getD .unit) :=
  fun _ _ _ => rfl

/-- C4 counterexample: with the host-function flag clear and the immediate
caller being the session frame of the system account, which is not a
stored contract frame and for which the system-contract predicate is
constantly false, no gas is charged: the counter stays at 5 although the
claim predicts a charge to 12, and the charge is not blocked by the gas
limit. -/
theorem c4_charge_bypass_counterexample :
    charge_system_contract_call false (some (.session systemAccountHash))
      (fun _ => false) 5 100 7 = .ok 5 ∧
    is_system_immediate_caller (some (.session systemAccountHash)) (fun _ => false) = true ∧
    5 + 7 ≤ 100 ∧
    (Except.ok 5 : Except Error Nat) ≠ .ok 12 := by
  exact ⟨rfl, rfl, by decide, by simp⟩

/-- C4 amended: charge_system_contract_call adds the cost through the
context in every case except exactly three: when the runtime is within a
host-function scope, when the immediate caller is a stored session or
stored contract frame whose contract is a system contract, or when the
immediate caller is the session frame of the system account. -/
theorem c4_charge_system_contract_call_exemptions :
    ∀ (flag : Bool) (ic : Option CallStackElement) (isSys : ContractHash → Bool)
      (gc gl amt : Nat),
      (flag = false →
        ic ≠ some (.session systemAccountHash) →
        (∀ a p ch, ic = some (.storedSession a p ch) → isSys ch = false) →
        (∀ p ch, ic = some (.storedContract p ch) → isSys ch = false) →
        charge_system_contract_call flag ic isSys gc gl amt =
          context_charge_gas gc gl amt) ∧
      ((flag = true ∨ ic = some (.session systemAccountHash) ∨
          (∃ a p ch, ic = some (.storedSession a p ch) ∧ isSys ch = true) ∨
          (∃ p ch, ic = some (.storedContract p ch) ∧ isSys ch = true)) →
        charge_system_contract_call flag ic isSys gc gl amt = .ok gc) := by
  intro flag ic isSys gc gl amt
  constructor
  · intro hflag hsess hss hsc
    subst hflag
    have hfalse : is_system_immediate_caller ic isSys = false := by
      match ic with
      | none => rfl
      | some (.session a) =>
        simp only [is_system_immediate_caller, decide_eq_false_iff_not]
        intro ha
        exact hsess (by rw [ha])
      | some (.storedSession a p ch) => exact hss a p ch rfl
      | some (.storedContract p ch) => exact hsc p ch rfl
    simp [charge_system_contract_call, hfalse]
  · intro hcase
    have htrue : flag = true ∨ is_system_immediate_caller ic isSys = true := by
      rcases hcase with h | h | ⟨a, p, ch, hic, hch⟩ | ⟨p, ch, hic, hch⟩
      · exact Or.inl h
      · subst h
        exact Or.inr (by simp [is_system_immediate_caller, systemAccountHash])
      · subst hic
        exact Or.inr hch
      · subst hic
        exact Or.inr hch
    rcases htrue with h | h <;> simp [charge_system_contract_call, h]

/-- C4 witness: a normal stored-contract immediate caller outside
host-function scope is charged; the session frame of the system account is
exempt. -/
theorem c4_charge_system_contract_call_witness :
    charge_system_contract_call false (some (.storedContract 1 2)) (fun _ => false) 0 10 3 =
      context_charge_gas 0 10 3 ∧
    charge_system_contract_call true none (fun _ => false) 0 10 3 = .ok 0 :=
  ⟨(c4_charge_system_contract_call_exemptions false (some (.storedContract 1 2))
      (fun _ => false) 0 10 3).1 rfl (by decide) (by simp) (by simp),
   (c4_charge_system_contract_call_exemptions true none (fun _ => false) 0 10 3).2
      (Or.inl rfl)⟩

/-- Helper: every occurrence of the main-purse address among attenuated
argument values carries exactly the requested rights. -/
theorem attenuate_uref_in_args_masks (args : RuntimeArgs) (purse : Addr)
    (rights : AccessRights) :
    ∀ nv ∈ attenuate_uref_in_args args purse rights,
      ∀ u, nv.2 = CLValue.uref u → u.addr = purse → u.rights = rights := by
  intro nv hmem u hu haddr
  simp only [attenuate_uref_in_args, List.mem_map] at hmem
  obtain ⟨⟨n, v⟩, _, heq⟩ := hmem
  cases v with
  | uref w =>
    simp only [attenuate_value] at heq
    by_cases hw : w.addr = purse
    · rw [if_pos hw] at heq
      subst heq
      cases hu
      rfl
    · rw [if_neg hw] at heq
      subst heq
      cases hu
      exact absurd haddr hw
  | unit => simp only [attenuate_value] at heq; subst heq; cases hu
  | i32 n => simp only [attenuate_value] at heq; subst heq; cases hu
  | u64 n => simp only [attenuate_value] at heq; subst heq; cases hu
  | bytes bs => simp only [attenuate_value] at heq; subst heq; cases hu

/-- C5: when the originating account is not the system account, the
immediate caller is not a system contract and the callee is not a system
contract, every occurrence of the calling account main-purse URef among
the context args of a contract call carries exactly WRITE; and the Module
branch of Executor::exec attenuates the main-purse URef in the session
args to WRITE unconditionally. -/
theorem c5_main_purse_attenuation :
    (∀ (args : RuntimeArgs) (purse : Addr)
        (is_system_account is_caller_system is_calling_system : Bool),
      is_system_account = false → is_caller_system = false → is_calling_system = false →
      ∀ nv ∈ execute_contract_context_args args purse is_system_account
          is_caller_system is_calling_system,
        ∀ u, nv.2 = CLValue.uref u → u.addr = purse →
          u.rights = AccessRights.WRITE) ∧
    (∀ (args : RuntimeArgs) (purse : Addr),
      ∀ nv ∈ exec_module_args args purse,
        ∀ u, nv.2 = CLValue.uref u → u.addr = purse →
          u.rights = AccessRights.WRITE) := by
  constructor
  · intro args purse sa cs ks hsa hcs hks nv hmem u hu haddr
    rw [hsa, hcs, hks] at hmem
    simp only [execute_contract_context_args, should_attenuate_urefs, Bool.not_false,
      Bool.and_self, if_pos] at hmem
    exact attenuate_uref_in_args_masks args purse AccessRights.WRITE nv hmem u hu haddr
  · intro args purse nv hmem u hu haddr
    exact attenuate_uref_in_args_masks args purse AccessRights.WRITE nv hmem u hu haddr

/-- C5 witness: a full-rights main-purse URef among the args is handed to
a normal callee with exactly WRITE, on both paths. -/
theorem c5_main_purse_attenuation_witness :
    (URef.mk 3 AccessRights.WRITE).rights = AccessRights.WRITE ∧
    (URef.mk 4 AccessRights.WRITE).rights = AccessRights.WRITE :=
  ⟨c5_main_purse_attenuation.1 [("p", CLValue.uref ⟨3, AccessRights.READ_ADD_WRITE⟩)] 3
      false false false rfl rfl rfl ("p", CLValue.uref ⟨3, AccessRights.WRITE⟩)
      (by decide) ⟨3, AccessRights.WRITE⟩ rfl rfl,
   c5_main_purse_attenuation.2 [("p", CLValue.uref ⟨4, AccessRights.READ_ADD_WRITE⟩)] 4
      ("p", CLValue.uref ⟨4, AccessRights.WRITE⟩)
      (by decide) ⟨4, AccessRights.WRITE⟩ rfl rfl⟩

/-- Helper: writing a key always makes it readable at the new root. -/
theorem gsFind_gsWrite_self (root : GState) (key : Key) (value : StoredValue) :
    gsFind (gsWrite root key value) key = some value := by
  induction root with
  | nil => simp [gsWrite, gsFind]
  | cons kv rest ih =>
    obtain ⟨k, v⟩ := kv
    by_cases h : k = key
    · simp [gsWrite, gsFind, h]
    · simp [gsWrite, gsFind, h, ih]

/-- Helper: a trie write keeps its post-state root in the store, provided
the pre-state root was there. -/
theorem trieWrite_root_mem (db : TrieDb) (root : GState) (key : Key) (v : StoredValue)
    (hmem : root ∈ db.roots) :
    (trieWrite db root key v).2 ∈ (trieWrite db root key v).1.roots := by
  unfold trieWrite
  split
  · exact hmem
  · exact List.mem_cons_self _ _

/-- Helper: the post-state root produced by a successful commit step is in
the store afterwards, provided the pre-state root was. -/
theorem commitStep_root_mem (db : TrieDb) (root : GState) (key : Key) (t : Transform)
    (db' : TrieDb) (root' : GState)
    (h : commitStep db root key t = .ok (db', root')) (hmem : root ∈ db.roots) :
    root' ∈ db'.roots := by
  unfold commitStep at h
  split at h
  · split at h
    · rename_i nv
      injection h with h2
      have h3 := trieWrite_root_mem db root key nv hmem
      rw [h2] at h3
      exact h3
    · cases h
  · split at h
    · rename_i uv huv
      injection h with h2
      have h3 := trieWrite_root_mem db root key uv hmem
      rw [h2] at h3
      exact h3
    · cases h

/-- Helper: a successful commit loop keeps the final root in the store. -/
theorem commitLoop_root_mem (es : List (Key × Transform)) :
    ∀ (db : TrieDb) (root : GState) (db' : TrieDb) (root' : GState),
      commitLoop db root es = .ok (db', root') → root ∈ db.roots → root' ∈ db'.roots := by
  induction es with
  | nil =>
    intro db root db' root' h hmem
    cases h
    exact hmem
  | cons kt rest ih =>
    intro db root db' root' h hmem
    obtain ⟨key, t⟩ := kt
    unfold commitLoop at h
    cases hstep : commitStep db root key t with
    | error e => rw [hstep] at h; cases h
    | ok p =>
      rw [hstep] at h
      exact ih p.1 p.2 db' root' h
        (commitStep_root_mem db root key t p.1 p.2 (by rw [hstep]) hmem)

/-- Helper: the commit loop over concatenated effects is the composition
of the loops. -/
theorem commitLoop_append (t1 t2 : List (Key × Transform)) :
    ∀ (db : TrieDb) (root : GState),
      commitLoop db root (t1 ++ t2) =
        match commitLoop db root t1 with
        | .error e => .error e
        | .ok (db', root') => commitLoop db' root' t2 := by
  induction t1 with
  | nil => intro db root; rfl
  | cons kt rest ih =>
    intro db root
    obtain ⟨key, t⟩ := kt
    simp only [List.cons_append, commitLoop]
    cases commitStep db root key t with
    | error e => rfl
    | ok p => exact ih p.1 p.2

/-- Helper: a loop over write-only effects always succeeds. -/
theorem commitLoop_writes_ok (es : List (Key × Transform))
    (hw : ∀ kt ∈ es, ∃ v, kt.2 = Transform.write v) :
    ∀ (db : TrieDb) (root : GState),
      ∃ db' root', commitLoop db root es = .ok (db', root') := by
  induction es with
  | nil => intro db root; exact ⟨db, root, rfl⟩
  | cons kt rest ih =>
    intro db root
    obtain ⟨key, t⟩ := kt
    obtain ⟨v, hv⟩ := hw (key, t) (List.mem_cons_self _ _)
    have hv' : t = Transform.write v := hv
    subst hv'
    have hstep : commitStep db root key (.write v) =
        .ok (trieWrite db root key v) := by
      unfold commitStep
      cases hf : gsFind root key with
      | none => rfl
      | some cur => rfl
    have hrest := ih (fun kt hkt => hw kt (List.mem_cons_of_mem _ hkt))
    obtain ⟨db', root', h⟩ := hrest (trieWrite db root key v).1 (trieWrite db root key v).2
    exact ⟨db', root', by simp only [commitLoop, hstep]; exact h⟩

/-- C7: a non-Write transform on a key absent at the current state root
fails the commit with KeyNotFound; a transform that cannot be applied to
the stored value fails it with TransformError; a Write to an absent key
writes the new value and processing continues. -/
theorem c7_commit_pair_processing :
    (∀ (db : TrieDb) (root : GState) (key : Key) (t : Transform)
        (rest : List (Key × Transform)),
      root ∈ db.roots → gsFind root key = none → (∀ v, t ≠ Transform.write v) →
      commit db root ((key, t) :: rest) = .error (.keyNotFound key)) ∧
    (∀ (db : TrieDb) (root : GState) (key : Key) (t : Transform)
        (rest : List (Key × Transform)) (current : StoredValue) (err : TransformError),
      root ∈ db.roots → gsFind root key = some current →
      t.apply current = .error err →
      commit db root ((key, t) :: rest) = .error (.transformError err)) ∧
    (∀ (db : TrieDb) (root : GState) (key : Key) (value : StoredValue)
        (rest : List (Key × Transform)),
      root ∈ db.roots → gsFind root key = none →
      commit db root ((key, Transform.write value) :: rest) =
        commitLoop (trieWrite db root key value).1 (trieWrite db root key value).2 rest ∧
      gsFind (trieWrite db root key value).2 key = some value) := by
  refine ⟨?_, ?_, ?_⟩
  · intro db root key t rest hmem hfind hnw
    have hstep : commitStep db root key t = .error (.keyNotFound key) := by
      cases t with
      | write v => exact absurd rfl (hnw v)
      | identity => simp [commitStep, hfind]
      | addInt32 i => simp [commitStep, hfind]
      | addUInt64 n => simp [commitStep, hfind]
      | addKeys ks => simp [commitStep, hfind]
      | failure => simp [commitStep, hfind]
    simp [commit, hmem, commitLoop, hstep]
  · intro db root key t rest current err hmem hfind happly
    have hstep : commitStep db root key t = .error (.transformError err) := by
      simp [commitStep, hfind, happly]
    simp [commit, hmem, commitLoop, hstep]
  · intro db root key value rest hmem hfind
    have hstep : commitStep db root key (.write value) =
        .ok (trieWrite db root key value) := by
      simp [commitStep, hfind]
    constructor
    · simp [commit, hmem, commitLoop, hstep]
    · unfold trieWrite
      rw [if_neg (by rw [hfind]; exact fun h => Option.noConfusion h)]
      exact gsFind_gsWrite_self root key value

/-- C7 witness: the three commit behaviours at concrete inputs over a
store holding one root. -/
theorem c7_commit_pair_processing_witness :
    commit ⟨[[(Key.uref 1, StoredValue.clValue (CLValue.u64 3))]]⟩
        [(Key.uref 1, StoredValue.clValue (CLValue.u64 3))]
        [(Key.uref 2, Transform.identity)] = .error (.keyNotFound (Key.uref 2)) ∧
    commit ⟨[[(Key.uref 1, StoredValue.clValue (CLValue.u64 3))]]⟩
        [(Key.uref 1, StoredValue.clValue (CLValue.u64 3))]
        [(Key.uref 1, Transform.addInt32 1)] = .error (.transformError .typeMismatch) ∧
    (commit ⟨[[(Key.uref 1, StoredValue.clValue (CLValue.u64 3))]]⟩
        [(Key.uref 1, StoredValue.clValue (CLValue.u64 3))]
        [(Key.uref 2, Transform.write (StoredValue.clValue CLValue.unit))] =
      commitLoop
        (trieWrite ⟨[[(Key.uref 1, StoredValue.clValue (CLValue.u64 3))]]⟩
          [(Key.uref 1, StoredValue.clValue (CLValue.u64 3))] (Key.uref 2)
          (StoredValue.clValue CLValue.unit)).1
        (trieWrite ⟨[[(Key.uref 1, StoredValue.clValue (CLValue.u64 3))]]⟩
          [(Key.uref 1, StoredValue.clValue (CLValue.u64 3))] (Key.uref 2)
          (StoredValue.clValue CLValue.unit)).2 [] ∧
      gsFind (trieWrite ⟨[[(Key.uref 1, StoredValue.clValue (CLValue.u64 3))]]⟩
          [(Key.uref 1, StoredValue.clValue (CLValue.u64 3))] (Key.uref 2)
          (StoredValue.clValue CLValue.unit)).2 (Key.uref 2) =
        some (StoredValue.clValue CLValue.unit)) :=
  ⟨c7_commit_pair_processing.1 _ _ (Key.uref 2) Transform.identity []
      (by simp) (by decide) (by simp),
   c7_commit_pair_processing.2.1 _ _ (Key.uref 1) (Transform.addInt32 1) []
      (StoredValue.clValue (CLValue.u64 3)) .typeMismatch (by simp) (by decide) rfl,
   c7_commit_pair_processing.2.2 _ _ (Key.uref 2) (StoredValue.clValue CLValue.unit) []
      (by simp) (by decide)⟩

/-- C9: starting from a root present in the store, committing write-only
transform sets T1 and then T2 over disjoint key sets at the resulting root
succeeds and yields exactly the store and post-state root of committing
the combined sequence T1 ++ T2 at the original root. -/
theorem c9_commit_sequential_composition :
    ∀ (db : TrieDb) (R : GState) (t1 t2 : List (Key × Transform)),
      R ∈ db.roots →
      (∀ kt ∈ t1, ∃ v, kt.2 = Transform.write v) →
      (∀ kt ∈ t2, ∃ v, kt.2 = Transform.write v) →
      (∀ kt1 ∈ t1, ∀ kt2 ∈ t2, kt1.1 ≠ kt2.1) →
      ∃ db1 R1 db2 R2,
        commit db R t1 = .ok (db1, R1) ∧
        commit db1 R1 t2 = .ok (db2, R2) ∧
        commit db R (t1 ++ t2) = .ok (db2, R2) := by
  intro db R t1 t2 hmem hw1 hw2 _hdisj
  obtain ⟨db1, R1, h1⟩ := commitLoop_writes_ok t1 hw1 db R
  have hmem1 : R1 ∈ db1.roots := commitLoop_root_mem t1 db R db1 R1 h1 hmem
  obtain ⟨db2, R2, h2⟩ := commitLoop_writes_ok t2 hw2 db1 R1
  refine ⟨db1, R1, db2, R2, ?_, ?_, ?_⟩
  · simp [commit, hmem, h1]
  · simp [commit, hmem1, h2]
  · simp [commit, hmem, commitLoop_append, h1, h2]

/-- C9 witness: two singleton write sets over distinct keys, committed
sequentially and combined. -/
theorem c9_commit_sequential_composition_witness :
    ∃ db1 R1 db2 R2,
      commit ⟨[[]]⟩ [] [(Key.uref 1, Transform.write (StoredValue.clValue CLValue.unit))] =
        .ok (db1, R1) ∧
      commit db1 R1 [(Key.uref 2, Transform.write (StoredValue.clValue (CLValue.u64 7)))] =
        .ok (db2, R2) ∧
      commit ⟨[[]]⟩ []
          ([(Key.uref 1, Transform.write (StoredValue.clValue CLValue.unit))] ++
            [(Key.uref 2, Transform.write (StoredValue.clValue (CLValue.u64 7)))]) =
        .ok (db2, R2) :=
  c9_commit_sequential_composition ⟨[[]]⟩ []
    [(Key.uref 1, Transform.write (StoredValue.clValue CLValue.unit))]
    [(Key.uref 2, Transform.write (StoredValue.clValue (CLValue.u64 7)))]
    (by simp) (by simp) (by simp) (by simp)

/-- A configuration whose br_table limit of 2 is stricter than the fixed
default of 256, used to separate the config field from the constant the
code checks. -/
def sampleWasmConfig : WasmConfig :=
  ⟨64, 188, 4096, 2, 256, 256, fun _ => some 1, .interpreted⟩

/-- A module with a memory section and a single function whose br_table
has three entries. -/
def sampleBrTableModule : WasmModule :=
  ⟨none, none, none, none, some [⟨1, none⟩], none, none, none, none,
    some [⟨[.brTable ⟨[0, 1, 2], 0⟩]⟩]⟩

/-- A module like sampleBrTableModule whose br_table has 257 entries,
above the fixed default limit. -/
def oversizedBrTableModule : WasmModule :=
  ⟨none, none, none, none, some [⟨1, none⟩], none, none, none, none,
    some [⟨[.brTable ⟨List.replicate 257 0, 0⟩]⟩]⟩

/-- C8 counterexample: a module whose br_table arity 3 exceeds the
configured br_table_max_size of 2 is nevertheless accepted by preprocess,
because the code checks the fixed constant DEFAULT_BR_TABLE_MAX_SIZE
instead of the configured limit. -/
theorem c8_preprocess_ignores_config_limit_counterexample :
    sampleWasmConfig.br_table_max_size = 2 ∧
    sampleBrTableModule.codeSection = some [⟨[.brTable ⟨[0, 1, 2], 0⟩]⟩] ∧
    (3 : Nat) > sampleWasmConfig.br_table_max_size ∧
    preprocess sampleWasmConfig sampleBrTableModule = .ok sampleBrTableModule :=
  ⟨rfl, rfl, by decide, rfl⟩

/-- Helper: an oversized br_table somewhere in the instruction stream
makes the scan fail with BrTableSizeExceeded at the limit and some
offending arity. -/
theorem check_br_tables_oversized (limit : Nat) (l : List Instruction)
    (h : ∃ d, Instruction.brTable d ∈ l ∧ d.table.length > limit) :
    ∃ actual, actual > limit ∧
      check_br_tables limit l = .error (.brTableSizeExceeded limit actual) := by
  induction l with
  | nil =>
    obtain ⟨d, hd, _⟩ := h
    cases hd
  | cons i rest ih =>
    obtain ⟨d, hd, hlen⟩ := h
    rcases List.mem_cons.mp hd with heq | hmem
    · exact ⟨d.table.length, hlen, by rw [← heq]; simp [check_br_tables, hlen]⟩
    · cases i with
      | brTable d0 =>
        by_cases h0 : d0.table.length > limit
        · exact ⟨d0.table.length, h0, by simp [check_br_tables, h0]⟩
        · obtain ⟨a, ha, hc⟩ := ih ⟨d, hmem, hlen⟩
          exact ⟨a, ha, by simp [check_br_tables, h0, hc]⟩
      | call idx =>
        obtain ⟨a, ha, hc⟩ := ih ⟨d, hmem, hlen⟩
        exact ⟨a, ha, by simp [check_br_tables, hc]⟩
      | getGlobal idx =>
        obtain ⟨a, ha, hc⟩ := ih ⟨d, hmem, hlen⟩
        exact ⟨a, ha, by simp [check_br_tables, hc]⟩
      | setGlobal idx =>
        obtain ⟨a, ha, hc⟩ := ih ⟨d, hmem, hlen⟩
        exact ⟨a, ha, by simp [check_br_tables, hc]⟩
      | i32Const n =>
        obtain ⟨a, ha, hc⟩ := ih ⟨d, hmem, hlen⟩
        exact ⟨a, ha, by simp [check_br_tables, hc]⟩
      | f32Add =>
        obtain ⟨a, ha, hc⟩ := ih ⟨d, hmem, hlen⟩
        exact ⟨a, ha, by simp [check_br_tables, hc]⟩
      | nop =>
        obtain ⟨a, ha, hc⟩ := ih ⟨d, hmem, hlen⟩
        exact ⟨a, ha, by simp [check_br_tables, hc]⟩

/-- C8 amended: preprocessing rejects a module containing a br_table whose
arity exceeds the fixed constant DEFAULT_BR_TABLE_MAX_SIZE (256),
independently of the WasmConfig, with the BrTableSizeExceeded validation
error, provided the checks run before it pass; the rejection happens
before any instrumentation and preprocessing charges no gas. -/
theorem c8_preprocess_rejects_br_table_over_default_limit :
    ∀ (cfg : WasmConfig) (m m' : WasmModule),
      ensure_valid_access m = .ok () →
      (memory_section m).isSome = true →
      ensure_table_size_limit m DEFAULT_MAX_TABLE_SIZE = .ok m' →
      (∃ d, ∃ body ∈ m'.codeSection.getD [],
        Instruction.brTable d ∈ body.code ∧ d.table.length > DEFAULT_BR_TABLE_MAX_SIZE) →
      ∃ actual, actual > DEFAULT_BR_TABLE_MAX_SIZE ∧
        preprocess cfg m =
          .error (.wasmValidation
            (.brTableSizeExceeded DEFAULT_BR_TABLE_MAX_SIZE actual)) := by
  intro cfg m m' hva hmem htab hex
  have hover : ∃ d, Instruction.brTable d ∈ (m'.codeSection.getD []).flatMap FuncBody.code ∧
      d.table.length > DEFAULT_BR_TABLE_MAX_SIZE := by
    obtain ⟨d, body, hb, hi, hlen⟩ := hex
    exact ⟨d, List.mem_flatMap.mpr ⟨body, hb, hi⟩, hlen⟩
  obtain ⟨a, ha, hc⟩ := check_br_tables_oversized DEFAULT_BR_TABLE_MAX_SIZE _ hover
  have hbr : ensure_br_table_size_limit m' DEFAULT_BR_TABLE_MAX_SIZE =
      .error (.brTableSizeExceeded DEFAULT_BR_TABLE_MAX_SIZE a) := by
    unfold ensure_br_table_size_limit
    cases hcs : m'.codeSection with
    | none =>
      rw [hcs] at hover
      obtain ⟨d, hd, _⟩ := hover
      simp at hd
    | some bodies =>
      rw [hcs] at hc
      simpa using hc
  have hnone : (memory_section m).isNone = false := by
    cases hms : memory_section m with
    | none => rw [hms] at hmem; simp at hmem
    | some ms => rfl
  exact ⟨a, ha, by simp [preprocess, hva, hnone, htab, hbr]⟩

set_option maxRecDepth 4000 in
/-- C8 witness: the 257-entry br_table module is rejected against the
default limit of 256. -/
theorem c8_preprocess_rejects_witness :
    ∃ actual, actual > DEFAULT_BR_TABLE_MAX_SIZE ∧
      preprocess sampleWasmConfig oversizedBrTableModule =
        .error (.wasmValidation
          (.brTableSizeExceeded DEFAULT_BR_TABLE_MAX_SIZE actual)) :=
  c8_preprocess_rejects_br_table_over_default_limit sampleWasmConfig
    oversizedBrTableModule oversizedBrTableModule rfl rfl rfl
    ⟨⟨List.replicate 257 0, 0⟩, ⟨[.brTable ⟨List.replicate 257 0, 0⟩]⟩,
      by simp [oversizedBrTableModule], by simp, by simp [DEFAULT_BR_TABLE_MAX_SIZE]⟩

/-- A minimal valid session module: a memory section and one body with a
single nop. -/
def sessionModule : WasmModule :=
  ⟨none, none, none, none, some [⟨1, none⟩], none, none, none, none, some [⟨[.nop]⟩]⟩

/-- A configuration accepting sessionModule. -/
def execCfg : WasmConfig :=
  ⟨64, 188, 4096, 256, 256, 256, fun _ => some 1, .interpreted⟩

/-- C1 counterexample: a module execution that records a write through the
tracking copy and then fails returns a Failure whose journal contains that
write on top of the pre-execution nonce update, so the failure journal is
not the pre-execution snapshot. -/
theorem c1_failure_journal_counterexample :
    Executor_exec execCfg (.module sessionModule) [] 0
        [(Key.deployInfo 1, Transform.write (StoredValue.clValue CLValue.unit))]
        ⟨[(Key.uref 5, Transform.write (StoredValue.clValue (CLValue.u64 9)))], [], 42,
          some (.hostError .gasLimit)⟩ =
      .failure .gasLimit
        [(Key.deployInfo 1, Transform.write (StoredValue.clValue CLValue.unit)),
          (Key.uref 5, Transform.write (StoredValue.clValue (CLValue.u64 9)))] [] 42 ∧
    ([(Key.deployInfo 1, Transform.write (StoredValue.clValue CLValue.unit)),
      (Key.uref 5, Transform.write (StoredValue.clValue (CLValue.u64 9)))] : Journal) ≠
      [(Key.deployInfo 1, Transform.write (StoredValue.clValue CLValue.unit))] :=
  ⟨rfl, by decide⟩

/-- C1 amended: a Failure returned by Executor::exec carries the journal
of the shared tracking copy at the moment of failure: the pre-execution
transforms followed by every transform the failed invocation recorded, on
both the module and the stored-contract path; only failures raised before
the invocation, such as preprocessing errors, carry exactly the
pre-execution snapshot. -/
theorem c1_failure_journal_at_moment_of_failure :
    (∀ (cfg : WasmConfig) (m m' : WasmModule) (args : RuntimeArgs) (purse : Addr)
        (j0 : Journal) (b : InvokeBehavior) (e : Error),
      preprocess cfg m = .ok m' →
      b.outcome = some (.hostError e) →
      Executor_exec cfg (.module m) args purse j0 b =
        .failure e (j0 ++ b.effects) b.transfers b.gas_used) ∧
    (∀ (cfg : WasmConfig) (m m' : WasmModule) (args : RuntimeArgs) (purse : Addr)
        (j0 : Journal) (b : InvokeBehavior) (msg : String),
      preprocess cfg m = .ok m' →
      b.outcome = some (.interpError msg) →
      Executor_exec cfg (.module m) args purse j0 b =
        .failure (.interpreter msg) (j0 ++ b.effects) b.transfers b.gas_used) ∧
    (∀ (cfg : WasmConfig) (ch : ContractHash) (ep : String) (args : RuntimeArgs)
        (purse : Addr) (j0 : Journal) (b : InvokeBehavior) (e : Error),
      b.outcome = some (.hostError e) →
      Executor_exec cfg (.contract ch ep) args purse j0 b =
        .failure e (j0 ++ b.effects) b.transfers b.gas_used) ∧
    (∀ (cfg : WasmConfig) (ch : ContractHash) (ep : String) (args : RuntimeArgs)
        (purse : Addr) (j0 : Journal) (b : InvokeBehavior) (msg : String),
      b.outcome = some (.interpError msg) →
      Executor_exec cfg (.contract ch ep) args purse j0 b =
        .failure (.interpreter msg) (j0 ++ b.effects) b.transfers b.gas_used) ∧
    (∀ (cfg : WasmConfig) (m : WasmModule) (args : RuntimeArgs) (purse : Addr)
        (j0 : Journal) (b : InvokeBehavior) (err : PreprocessingError),
      preprocess cfg m = .error err →
      Executor_exec cfg (.module m) args purse j0 b =
        .failure (.wasmPreprocessing err) j0 [] 0) := by
  refine ⟨?_, ?_, ?_, ?_, ?_⟩
  · intro cfg m m' args purse j0 b e hpre hout
    simp [Executor_exec, hpre, hout, into_failure]
  · intro cfg m m' args purse j0 b msg hpre hout
    simp [Executor_exec, hpre, hout, into_failure]
  · intro cfg ch ep args purse j0 b e hout
    simp [Executor_exec, hout, into_failure]
  · intro cfg ch ep args purse j0 b msg hout
    simp [Executor_exec, hout, into_failure]
  · intro cfg m args purse j0 b err hpre
    simp [Executor_exec, hpre, into_failure]

/-- C1 witness: the amended statement evaluated on a concrete failing
module execution and a concrete failing contract call. -/
theorem c1_failure_journal_witness :
    Executor_exec execCfg (.module sessionModule) [] 0
        [(Key.deployInfo 2, Transform.write (StoredValue.clValue CLValue.unit))]
        ⟨[(Key.uref 6, Transform.identity)], [3], 7, some (.hostError .invalidContext)⟩ =
      .failure .invalidContext
        ([(Key.deployInfo 2, Transform.write (StoredValue.clValue CLValue.unit))] ++
          [(Key.uref 6, Transform.identity)]) [3] 7 ∧
    Executor_exec execCfg (.contract 9 "store") [] 0 []
        ⟨[(Key.uref 8, Transform.addUInt64 1)], [], 11, some (.hostError .gasLimit)⟩ =
      .failure .gasLimit ([] ++ [(Key.uref 8, Transform.addUInt64 1)]) [] 11 :=
  ⟨c1_failure_journal_at_moment_of_failure.1 execCfg sessionModule sessionModule [] 0
      [(Key.deployInfo 2, Transform.write (StoredValue.clValue CLValue.unit))]
      ⟨[(Key.uref 6, Transform.identity)], [3], 7, some (.hostError .invalidContext)⟩
      .invalidContext rfl rfl,
   c1_failure_journal_at_moment_of_failure.2.2.1 execCfg 9 "store" [] 0 []
      ⟨[(Key.uref 8, Transform.addUInt64 1)], [], 11, some (.hostError .gasLimit)⟩
      .gasLimit rfl⟩

end CasperEE
